import Mathlib

/-!
Verification of the layout-document model and export pipeline of the
AdaptAI editor (src/App.tsx, src/types.ts).

The canonical JSON export is `JSON.stringify({ sections, designSystem }, null, 2)`
(src/App.tsx lines 145 and 408).  We embed the JSON value space that a
Document can produce (strings, booleans, arrays, objects; the data model
contains no numbers or nulls), the pretty printer implementing the
`JSON.stringify(v, null, w)` text format, and a whitespace-tolerant
recursive-descent parser modelling `JSON.parse` on such texts.
-/

/-- JSON values producible by serializing a Document: strings, booleans,
arrays and objects (key/value lists in emission order). -/
inductive Json where
  | str : String → Json
  | bool : Bool → Json
  | arr : List Json → Json
  | obj : List (String × Json) → Json

/-- Hex digit characters, lower case, as used by `JSON.stringify` unicode
escapes and by `parseInt(s, 16)` digits. -/
def hexDigitChar (n : Nat) : Char :=
  match n with
  | 0 => '0' | 1 => '1' | 2 => '2' | 3 => '3' | 4 => '4'
  | 5 => '5' | 6 => '6' | 7 => '7' | 8 => '8' | 9 => '9'
  | 10 => 'a' | 11 => 'b' | 12 => 'c' | 13 => 'd' | 14 => 'e'
  | _ => 'f'

/-- The characters accepted as hex digits by Javascript (`[a-f\d]` with the
`i` flag, and `\uXXXX` escapes): `0-9`, `a-f`, `A-F`. -/
def isHexDigitJS (c : Char) : Bool :=
  ('0' ≤ c && c ≤ '9') || ('a' ≤ c && c ≤ 'f') || ('A' ≤ c && c ≤ 'F')

/-- Numeric value of a Javascript hex digit (0 for non-digits). -/
def hexDigitVal (c : Char) : Nat :=
  if '0' ≤ c && c ≤ '9' then c.toNat - 48
  else if 'a' ≤ c && c ≤ 'f' then c.toNat - 87
  else if 'A' ≤ c && c ≤ 'F' then c.toNat - 55
  else 0

/-- How `JSON.stringify` escapes one character inside a string literal. -/
def escapeChar (c : Char) : List Char :=
  if c = '"' then ['\\', '"']
  else if c = '\\' then ['\\', '\\']
  else if c = '\x08' then ['\\', 'b']
  else if c = '\x09' then ['\\', 't']
  else if c = '\x0a' then ['\\', 'n']
  else if c = '\x0c' then ['\\', 'f']
  else if c = '\x0d' then ['\\', 'r']
  else if c.toNat < 32 then
    ['\\', 'u', '0', '0', hexDigitChar (c.toNat / 16), hexDigitChar (c.toNat % 16)]
  else [c]

/-- Escape a whole string body, character by character. -/
def escapeList : List Char → List Char
  | [] => []
  | c :: cs => escapeChar c ++ escapeList cs

mutual

/-- The text `JSON.stringify(v, null, w)` produces for value `v` when the
enclosing context is indented by `ind` spaces. -/
def renderVal (w ind : Nat) : Json → List Char
  | .str s => '"' :: (escapeList s.data ++ ['"'])
  | .bool true => ['t', 'r', 'u', 'e']
  | .bool false => ['f', 'a', 'l', 's', 'e']
  | .arr [] => ['[', ']']
  | .arr (x :: xs) =>
      '[' :: '\n' :: (renderItems w (ind + w) x xs ++
        '\n' :: (List.replicate ind ' ' ++ [']']))
  | .obj [] => ['\x7b', '\x7d']
  | .obj ((k, v) :: fs) =>
      '\x7b' :: '\n' :: (renderFields w (ind + w) k v fs ++
        '\n' :: (List.replicate ind ' ' ++ ['\x7d']))
  termination_by j => sizeOf j
  decreasing_by all_goals (simp_wf; try omega)

/-- The comma-and-newline separated element lines of a non-empty array. -/
def renderItems (w ind : Nat) (x : Json) : List Json → List Char
  | [] => List.replicate ind ' ' ++ renderVal w ind x
  | y :: ys =>
      List.replicate ind ' ' ++ (renderVal w ind x ++
        ',' :: '\n' :: renderItems w ind y ys)
  termination_by xs => sizeOf x + sizeOf xs
  decreasing_by all_goals (simp_wf; try omega)

/-- The comma-and-newline separated `"key": value` lines of a non-empty
object. -/
def renderFields (w ind : Nat) (k : String) (v : Json) : List (String × Json) → List Char
  | [] =>
      List.replicate ind ' ' ++
        ('"' :: (escapeList k.data ++ '"' :: ':' :: ' ' :: renderVal w ind v))
  | (k2, v2) :: gs =>
      List.replicate ind ' ' ++
        ('"' :: (escapeList k.data ++ '"' :: ':' :: ' ' :: (renderVal w ind v ++
          ',' :: '\n' :: renderFields w ind k2 v2 gs)))
  termination_by gs => sizeOf v + sizeOf gs
  decreasing_by all_goals (simp_wf; try omega)

end

/-- Whitespace recognized between JSON tokens. -/
def isWsChar (c : Char) : Bool :=
  c = ' ' || c = '\n' || c = '\t' || c = '\r'

/-- Drop leading inter-token whitespace. -/
def skipWs : List Char → List Char
  | [] => []
  | c :: rest => if isWsChar c then skipWs rest else c :: rest

/-- Decode a one-character escape sequence of a JSON string literal. -/
def decodeEsc (c : Char) : Option Char :=
  if c = '"' then some '"'
  else if c = '\\' then some '\\'
  else if c = '/' then some '/'
  else if c = 'b' then some '\x08'
  else if c = 'f' then some '\x0c'
  else if c = 'n' then some '\x0a'
  else if c = 'r' then some '\x0d'
  else if c = 't' then some '\x09'
  else none

/-- Parse the body of a JSON string literal (the opening quote already
consumed), returning the decoded characters and the input after the closing
quote. -/
def parseStrChars : List Char → Option (List Char × List Char)
  | [] => none
  | c :: rest =>
    if c = '"' then some ([], rest)
    else if c = '\\' then
      match rest with
      | [] => none
      | e :: rest1 =>
        if e = 'u' then
          match rest1 with
          | a :: b :: c2 :: d :: rest2 =>
            if isHexDigitJS a && isHexDigitJS b && isHexDigitJS c2 && isHexDigitJS d then
              (parseStrChars rest2).map (fun p =>
                (Char.ofNat (4096 * hexDigitVal a + 256 * hexDigitVal b +
                  16 * hexDigitVal c2 + hexDigitVal d) :: p.1, p.2))
            else none
          | _ => none
        else
          match decodeEsc e with
          | some ch => (parseStrChars rest1).map (fun p => (ch :: p.1, p.2))
          | none => none
    else (parseStrChars rest).map (fun p => (c :: p.1, p.2))

/-- Does the input start with the given (non-whitespace) token character? -/
def headIs (cs : List Char) (c : Char) : Bool :=
  match cs with
  | [] => false
  | d :: _ => d = c

mutual

/-- Fuel-indexed JSON value parser (the subset of `JSON.parse` exercised by
canonical exports: strings, booleans, arrays, objects). -/
def parseVal : Nat → List Char → Option (Json × List Char)
  | 0, _ => none
  | fuel + 1, cs =>
    match skipWs cs with
    | '"' :: rest => (parseStrChars rest).map (fun p => (Json.str (String.mk p.1), p.2))
    | 't' :: 'r' :: 'u' :: 'e' :: rest => some (Json.bool true, rest)
    | 'f' :: 'a' :: 'l' :: 's' :: 'e' :: rest => some (Json.bool false, rest)
    | '[' :: rest =>
      if headIs (skipWs rest) ']' then some (Json.arr [], (skipWs rest).tail)
      else (parseItems fuel rest).map (fun p => (Json.arr p.1, p.2))
    | '\x7b' :: rest =>
      if headIs (skipWs rest) '\x7d' then some (Json.obj [], (skipWs rest).tail)
      else (parseFields fuel rest).map (fun p => (Json.obj p.1, p.2))
    | _ => none

/-- Parse the elements of a non-empty array up to and including the closing
bracket. -/
def parseItems : Nat → List Char → Option (List Json × List Char)
  | 0, _ => none
  | fuel + 1, cs => do
    let p ← parseVal fuel cs
    match skipWs p.2 with
    | ',' :: rest2 => (parseItems fuel rest2).map (fun q => (p.1 :: q.1, q.2))
    | ']' :: rest2 => some ([p.1], rest2)
    | _ => none

/-- Parse the fields of a non-empty object up to and including the closing
brace. -/
def parseFields : Nat → List Char → Option (List (String × Json) × List Char)
  | 0, _ => none
  | fuel + 1, cs =>
    match skipWs cs with
    | '"' :: rest => do
      let k ← parseStrChars rest
      match skipWs k.2 with
      | ':' :: rest2 => do
        let v ← parseVal fuel rest2
        match skipWs v.2 with
        | ',' :: rest3 => (parseFields fuel rest3).map (fun q => ((String.mk k.1, v.1) :: q.1, q.2))
        | '\x7d' :: rest3 => some ([(String.mk k.1, v.1)], rest3)
        | _ => none
      | _ => none
    | _ => none

end

/-- Parse a complete JSON text: one value, with only whitespace allowed
after it (as `JSON.parse` requires). -/
def Json.parse (s : String) : Option Json :=
  match parseVal (s.data.length + 1) s.data with
  | some p => if skipWs p.2 = [] then some p.1 else none
  | none => none

/-- Parse a complete JSON text helper marker: all characters whitespace. -/
def wsAll (l : List Char) : Prop := ∀ c ∈ l, isWsChar c = true

theorem wsAll_nil : wsAll [] := by intro c hc; cases hc

theorem wsAll_cons {c l} (hc : isWsChar c = true) (hl : wsAll l) : wsAll (c :: l) := by
  intro d hd
  rcases List.mem_cons.mp hd with h | h
  · exact h ▸ hc
  · exact hl d h

theorem wsAll_append {l1 l2} (h1 : wsAll l1) (h2 : wsAll l2) : wsAll (l1 ++ l2) := by
  intro d hd
  rcases List.mem_append.mp hd with h | h
  · exact h1 d h
  · exact h2 d h

theorem wsAll_replicate_space (n : Nat) : wsAll (List.replicate n ' ') := by
  intro d hd
  rw [List.eq_of_mem_replicate hd]
  rfl

theorem skipWs_append_ws {pre} (h : wsAll pre) (l : List Char) :
    skipWs (pre ++ l) = skipWs l := by
  induction pre with
  | nil => rfl
  | cons c cs ih =>
    have hc : isWsChar c = true := h c (List.mem_cons_self c cs)
    have hcs : wsAll cs := fun d hd => h d (List.mem_cons_of_mem c hd)
    simp [skipWs, hc, ih hcs]

theorem skipWs_cons_not {c} (hc : isWsChar c = false) (l : List Char) :
    skipWs (c :: l) = c :: l := by
  simp [skipWs, hc]

theorem skipWs_ws_cons {pre} (h : wsAll pre) {c} (hc : isWsChar c = false)
    (l : List Char) : skipWs (pre ++ c :: l) = c :: l := by
  rw [skipWs_append_ws h, skipWs_cons_not hc]

theorem hexDigitVal_hexDigitChar {n : Nat} (h : n < 16) :
    hexDigitVal (hexDigitChar n) = n := by
  interval_cases n <;> rfl

theorem isHexDigitJS_hexDigitChar {n : Nat} (h : n < 16) :
    isHexDigitJS (hexDigitChar n) = true := by
  interval_cases n <;> rfl

theorem parseStrChars_quote (l : List Char) : parseStrChars ('"' :: l) = some ([], l) := by
  rw [parseStrChars.eq_def]
  simp

theorem parseStrChars_esc {e ch : Char} (hu : ¬e = 'u') (hd : decodeEsc e = some ch)
    (l : List Char) :
    parseStrChars ('\\' :: e :: l) = (parseStrChars l).map (fun p => (ch :: p.1, p.2)) := by
  rw [parseStrChars.eq_def]
  simp [hu, hd]

theorem parseStrChars_unicode {a b c2 d : Char} (ha : isHexDigitJS a = true)
    (hb : isHexDigitJS b = true) (hc : isHexDigitJS c2 = true) (hd : isHexDigitJS d = true)
    (l : List Char) :
    parseStrChars ('\\' :: 'u' :: a :: b :: c2 :: d :: l) =
      (parseStrChars l).map (fun p =>
        (Char.ofNat (4096 * hexDigitVal a + 256 * hexDigitVal b +
          16 * hexDigitVal c2 + hexDigitVal d) :: p.1, p.2)) := by
  rw [parseStrChars.eq_def]
  simp [ha, hb, hc, hd]

theorem parseStrChars_other {c : Char} (h1 : ¬c = '"') (h2 : ¬c = '\\') (l : List Char) :
    parseStrChars (c :: l) = (parseStrChars l).map (fun p => (c :: p.1, p.2)) := by
  rw [parseStrChars.eq_def]
  simp [h1, h2]

theorem parseStrChars_escape (l : List Char) (rest : List Char) :
    parseStrChars (escapeList l ++ '"' :: rest) = some (l, rest) := by
  induction l with
  | nil => simp [escapeList, parseStrChars_quote]
  | cons c cs ih =>
    rw [escapeList, escapeChar]
    split_ifs with h1 h2 h3 h4 h5 h6 h7 h8
    · subst h1
      simp [parseStrChars_esc (by decide) (show decodeEsc '"' = some '"' from rfl), ih]
    · subst h2
      simp [parseStrChars_esc (by decide) (show decodeEsc '\\' = some '\\' from rfl), ih]
    · subst h3
      simp [parseStrChars_esc (by decide) (show decodeEsc 'b' = some '\x08' from rfl), ih]
    · subst h4
      simp [parseStrChars_esc (by decide) (show decodeEsc 't' = some '\x09' from rfl), ih]
    · subst h5
      simp [parseStrChars_esc (by decide) (show decodeEsc 'n' = some '\x0a' from rfl), ih]
    · subst h6
      simp [parseStrChars_esc (by decide) (show decodeEsc 'f' = some '\x0c' from rfl), ih]
    · subst h7
      simp [parseStrChars_esc (by decide) (show decodeEsc 'r' = some '\x0d' from rfl), ih]
    · have hdiv : c.toNat / 16 < 16 := by omega
      have hmod : c.toNat % 16 < 16 := Nat.mod_lt _ (by omega)
      have hval : (4096 * hexDigitVal '0' + 256 * hexDigitVal '0' +
          16 * hexDigitVal (hexDigitChar (c.toNat / 16)) +
          hexDigitVal (hexDigitChar (c.toNat % 16))) = c.toNat := by
        rw [hexDigitVal_hexDigitChar hdiv, hexDigitVal_hexDigitChar hmod,
          show hexDigitVal '0' = 0 from rfl]
        omega
      simp only [List.cons_append, List.nil_append, List.append_assoc]
      rw [parseStrChars_unicode (by decide) (by decide)
        (isHexDigitJS_hexDigitChar hdiv) (isHexDigitJS_hexDigitChar hmod)]
      try simp only [List.nil_append]
      rw [hval, Char.ofNat_toNat, ih]
      rfl
    · simp [parseStrChars_other h1 h2, ih]

theorem stringMk_data (s : String) : String.mk s.data = s := rfl

mutual

/-- Parser fuel sufficient for a value (one unit per parser invocation). -/
def fuelJ : Json → Nat
  | .str _ => 1
  | .bool _ => 1
  | .arr [] => 1
  | .arr (x :: xs) => 1 + fuelItems x xs
  | .obj [] => 1
  | .obj ((_, v) :: fs) => 1 + fuelFields v fs
  termination_by j => sizeOf j
  decreasing_by all_goals (simp_wf; try omega)

/-- Parser fuel sufficient for the elements of a non-empty array. -/
def fuelItems (x : Json) : List Json → Nat
  | [] => 1 + fuelJ x
  | y :: ys => 1 + fuelJ x + fuelItems y ys
  termination_by xs => sizeOf x + sizeOf xs
  decreasing_by all_goals (simp_wf; try omega)

/-- Parser fuel sufficient for the fields of a non-empty object. -/
def fuelFields (v : Json) : List (String × Json) → Nat
  | [] => 1 + fuelJ v
  | (_, v2) :: gs => 1 + fuelJ v + fuelFields v2 gs
  termination_by gs => sizeOf v + sizeOf gs
  decreasing_by all_goals (simp_wf; try omega)

end

theorem fuelJ_pos (j : Json) : 1 ≤ fuelJ j := by
  cases j with
  | str s => simp [fuelJ]
  | bool b => simp [fuelJ]
  | arr xs => cases xs <;> simp [fuelJ]
  | obj fs =>
    match fs with
    | [] => simp [fuelJ]
    | (k, v) :: gs => simp [fuelJ]

theorem fuelItems_pos (x : Json) (xs : List Json) : 1 ≤ fuelItems x xs := by
  cases xs with
  | nil => simp only [fuelItems]; omega
  | cons y ys => simp only [fuelItems]; omega

theorem fuelFields_pos (v : Json) (gs : List (String × Json)) : 1 ≤ fuelFields v gs := by
  match gs with
  | [] => simp only [fuelFields]; omega
  | (k2, v2) :: gs2 => simp only [fuelFields]; omega

/-- Every rendered value starts with a non-whitespace character that is not a
closing bracket, closing brace or comma. -/
theorem renderVal_head (w ind : Nat) (j : Json) :
    ∃ c tl, renderVal w ind j = c :: tl ∧ isWsChar c = false ∧
      ¬c = ']' ∧ ¬c = '\x7d' := by
  cases j with
  | str s =>
    exact ⟨'"', escapeList s.data ++ ['"'], by simp [renderVal], rfl, by decide, by decide⟩
  | bool b =>
    cases b
    · exact ⟨'f', ['a', 'l', 's', 'e'], by simp [renderVal], rfl, by decide, by decide⟩
    · exact ⟨'t', ['r', 'u', 'e'], by simp [renderVal], rfl, by decide, by decide⟩
  | arr xs =>
    cases xs with
    | nil => exact ⟨'[', [']'], by simp [renderVal], rfl, by decide, by decide⟩
    | cons x xs2 =>
      exact ⟨'[', '\n' :: (renderItems w (ind + w) x xs2 ++
        '\n' :: (List.replicate ind ' ' ++ [']'])), by simp [renderVal], rfl,
        by decide, by decide⟩
  | obj fs =>
    match fs with
    | [] => exact ⟨'\x7b', ['\x7d'], by simp [renderVal], rfl, by decide, by decide⟩
    | (k, v) :: gs =>
      exact ⟨'\x7b', '\n' :: (renderFields w (ind + w) k v gs ++
        '\n' :: (List.replicate ind ' ' ++ ['\x7d'])), by simp [renderVal], rfl,
        by decide, by decide⟩

/-- A rendered item block is its indentation, the first value, and a tail. -/
theorem renderItems_shape (w ind : Nat) (x : Json) (xs : List Json) :
    ∃ t, renderItems w ind x xs =
      List.replicate ind ' ' ++ (renderVal w ind x ++ t) := by
  cases xs with
  | nil => exact ⟨[], by simp [renderItems]⟩
  | cons y ys =>
    exact ⟨',' :: '\n' :: renderItems w ind y ys, by simp [renderItems]⟩

theorem skipWs_cons_ws {c : Char} (hc : isWsChar c = true) (l : List Char) :
    skipWs (c :: l) = skipWs l := by
  simp [skipWs, hc]

/-- After a newline, an item block is seen through `skipWs` as its first
value's head character, which is not a closing token. -/
theorem skipWs_nl_items (w ind : Nat) (x : Json) (xs : List Json) (t : List Char) :
    ∃ c l, skipWs ('\n' :: (renderItems w ind x xs ++ t)) = c :: l ∧
      isWsChar c = false ∧ ¬c = ']' ∧ ¬c = '\x7d' := by
  obtain ⟨t2, hshape⟩ := renderItems_shape w ind x xs
  obtain ⟨c, tl, hx, hws, h1, h2⟩ := renderVal_head w ind x
  refine ⟨c, tl ++ (t2 ++ t), ?_, hws, h1, h2⟩
  rw [skipWs_cons_ws (by decide), hshape, hx]
  simp only [List.append_assoc, List.cons_append]
  exact skipWs_ws_cons (wsAll_replicate_space ind) hws _

/-- After a newline, a field block is seen through `skipWs` as an opening
quote. -/
theorem skipWs_nl_fields (w ind : Nat) (k : String) (v : Json)
    (gs : List (String × Json)) (t : List Char) :
    ∃ l, skipWs ('\n' :: (renderFields w ind k v gs ++ t)) = '"' :: l := by
  rw [skipWs_cons_ws (by decide)]
  match gs with
  | [] =>
    refine ⟨escapeList k.data ++ '"' :: ':' :: ' ' :: renderVal w ind v ++ t, ?_⟩
    rw [show renderFields w ind k v [] = List.replicate ind ' ' ++
      ('"' :: (escapeList k.data ++ '"' :: ':' :: ' ' :: renderVal w ind v)) from by
        simp [renderFields]]
    simp only [List.append_assoc, List.cons_append]
    rw [skipWs_ws_cons (wsAll_replicate_space ind) (by decide)]
  | (k2, v2) :: gs2 =>
    refine ⟨escapeList k.data ++ '"' :: ':' :: ' ' :: (renderVal w ind v ++
      ',' :: '\n' :: renderFields w ind k2 v2 gs2) ++ t, ?_⟩
    rw [show renderFields w ind k v ((k2, v2) :: gs2) = List.replicate ind ' ' ++
      ('"' :: (escapeList k.data ++ '"' :: ':' :: ' ' :: (renderVal w ind v ++
        ',' :: '\n' :: renderFields w ind k2 v2 gs2))) from by simp [renderFields]]
    simp only [List.append_assoc, List.cons_append]
    rw [skipWs_ws_cons (wsAll_replicate_space ind) (by decide)]

/-- Parsing inverts rendering: the joint statement for values, array items
and object fields, by induction on fuel. -/
theorem parse_render_all (fuel : Nat) :
    (∀ w j ind pre rest, fuelJ j ≤ fuel → wsAll pre →
        parseVal fuel (pre ++ (renderVal w ind j ++ rest)) = some (j, rest))
  ∧ (∀ w x xs ind pre mid rest, fuelItems x xs ≤ fuel → wsAll pre → wsAll mid →
        parseItems fuel (pre ++ (renderItems w ind x xs ++ (mid ++ ']' :: rest))) =
          some (x :: xs, rest))
  ∧ (∀ w k v gs ind pre mid rest, fuelFields v gs ≤ fuel → wsAll pre → wsAll mid →
        parseFields fuel (pre ++ (renderFields w ind k v gs ++ (mid ++ '\x7d' :: rest))) =
          some ((k, v) :: gs, rest)) := by
  induction fuel with
  | zero =>
    refine ⟨?_, ?_, ?_⟩
    · intro w j ind pre rest hf hpre
      exact absurd hf (by have := fuelJ_pos j; omega)
    · intro w x xs ind pre mid rest hf hpre hmid
      exact absurd hf (by have := fuelItems_pos x xs; omega)
    · intro w k v gs ind pre mid rest hf hpre hmid
      exact absurd hf (by have := fuelFields_pos v gs; omega)
  | succ n ih =>
    obtain ⟨ihV, ihI, ihF⟩ := ih
    refine ⟨?_, ?_, ?_⟩
    · intro w j ind pre rest hf hpre
      cases j with
      | str s =>
        rw [show renderVal w ind (Json.str s) = '"' :: (escapeList s.data ++ ['"']) from
          by simp [renderVal]]
        simp only [parseVal, List.cons_append, List.append_assoc, List.singleton_append]
        rw [skipWs_ws_cons hpre (by decide)]
        simp [parseStrChars_escape, stringMk_data]
      | bool b =>
        cases b
        · rw [show renderVal w ind (Json.bool false) = ['f', 'a', 'l', 's', 'e'] from
            by simp [renderVal]]
          simp only [parseVal, List.cons_append, List.append_assoc, List.singleton_append]
          rw [skipWs_ws_cons hpre (by decide)]
          simp
        · rw [show renderVal w ind (Json.bool true) = ['t', 'r', 'u', 'e'] from
            by simp [renderVal]]
          simp only [parseVal, List.cons_append, List.append_assoc, List.singleton_append]
          rw [skipWs_ws_cons hpre (by decide)]
          simp
      | arr xs =>
        cases xs with
        | nil =>
          rw [show renderVal w ind (Json.arr []) = ['[', ']'] from by simp [renderVal]]
          simp only [parseVal, List.cons_append, List.append_assoc, List.singleton_append]
          rw [skipWs_ws_cons hpre (by decide)]
          simp [headIs, skipWs, isWsChar]
        | cons x xs =>
          have hf2 : fuelItems x xs ≤ n := by
            rw [show fuelJ (Json.arr (x :: xs)) = 1 + fuelItems x xs from by
              simp [fuelJ]] at hf
            omega
          obtain ⟨c, l2, hskip, hcw, hc1, hc2⟩ :=
            skipWs_nl_items w (ind + w) x xs ('\n' :: (List.replicate ind ' ' ++ (']' :: rest)))
          have happ := ihI w x xs (ind + w) ['\n'] ('\n' :: List.replicate ind ' ') rest hf2
            (wsAll_cons (by decide) wsAll_nil)
            (wsAll_cons (by decide) (wsAll_replicate_space ind))
          rw [show renderVal w ind (Json.arr (x :: xs)) =
            '[' :: '\n' :: (renderItems w (ind + w) x xs ++
              '\n' :: (List.replicate ind ' ' ++ [']'])) from by simp [renderVal]]
          simp only [parseVal, List.cons_append, List.append_assoc, List.singleton_append,
            List.nil_append]
          rw [skipWs_ws_cons hpre (by decide)]
          simp only [List.cons_append, List.append_assoc, List.singleton_append,
            List.nil_append] at happ hskip
          simp [hskip, headIs, hc1, happ]
      | obj fs =>
        match fs with
        | [] =>
          rw [show renderVal w ind (Json.obj []) = ['\x7b', '\x7d'] from by simp [renderVal]]
          simp only [parseVal, List.cons_append, List.append_assoc, List.singleton_append]
          rw [skipWs_ws_cons hpre (by decide)]
          simp [headIs, skipWs, isWsChar]
        | (k, v) :: gs =>
          have hf2 : fuelFields v gs ≤ n := by
            rw [show fuelJ (Json.obj ((k, v) :: gs)) = 1 + fuelFields v gs from by
              simp [fuelJ]] at hf
            omega
          obtain ⟨l2, hskip⟩ :=
            skipWs_nl_fields w (ind + w) k v gs ('\n' :: (List.replicate ind ' ' ++ ('\x7d' :: rest)))
          have happ := ihF w k v gs (ind + w) ['\n'] ('\n' :: List.replicate ind ' ') rest hf2
            (wsAll_cons (by decide) wsAll_nil)
            (wsAll_cons (by decide) (wsAll_replicate_space ind))
          rw [show renderVal w ind (Json.obj ((k, v) :: gs)) =
            '\x7b' :: '\n' :: (renderFields w (ind + w) k v gs ++
              '\n' :: (List.replicate ind ' ' ++ ['\x7d'])) from by simp [renderVal]]
          simp only [parseVal, List.cons_append, List.append_assoc, List.singleton_append,
            List.nil_append]
          rw [skipWs_ws_cons hpre (by decide)]
          simp only [List.cons_append, List.append_assoc, List.singleton_append,
            List.nil_append] at happ hskip
          simp [hskip, headIs, happ]
    · intro w x xs ind pre mid rest hf hpre hmid
      cases xs with
      | nil =>
        have hfx : fuelJ x ≤ n := by
          rw [show fuelItems x [] = 1 + fuelJ x from by simp [fuelItems]] at hf
          omega
        have happ := ihV w x ind (pre ++ List.replicate ind ' ') (mid ++ ']' :: rest) hfx
          (wsAll_append hpre (wsAll_replicate_space ind))
        rw [show renderItems w ind x [] = List.replicate ind ' ' ++ renderVal w ind x from
          by simp [renderItems]]
        simp only [parseItems, List.cons_append, List.append_assoc, List.singleton_append,
          List.nil_append]
        simp only [List.cons_append, List.append_assoc, List.singleton_append,
          List.nil_append] at happ
        rw [happ]
        have hmid2 : skipWs (mid ++ ']' :: rest) = ']' :: rest :=
          skipWs_ws_cons hmid (by decide) _
        simp [hmid2]
      | cons y ys =>
        have hfx : fuelJ x ≤ n ∧ fuelItems y ys ≤ n := by
          rw [show fuelItems x (y :: ys) = 1 + fuelJ x + fuelItems y ys from by
            simp [fuelItems]] at hf
          have := fuelItems_pos y ys
          have := fuelJ_pos x
          omega
        have happ := ihV w x ind (pre ++ List.replicate ind ' ')
          (',' :: '\n' :: (renderItems w ind y ys ++ (mid ++ ']' :: rest))) hfx.1
          (wsAll_append hpre (wsAll_replicate_space ind))
        have happ2 := ihI w y ys ind ['\n'] mid rest hfx.2
          (wsAll_cons (by decide) wsAll_nil) hmid
        rw [show renderItems w ind x (y :: ys) = List.replicate ind ' ' ++
          (renderVal w ind x ++ ',' :: '\n' :: renderItems w ind y ys) from
          by simp [renderItems]]
        simp only [parseItems, List.cons_append, List.append_assoc, List.singleton_append,
          List.nil_append]
        simp only [List.cons_append, List.append_assoc, List.singleton_append,
          List.nil_append] at happ happ2
        rw [happ]
        have hcomma : skipWs (',' :: ('\n' :: (renderItems w ind y ys ++ (mid ++ ']' :: rest)))) =
            ',' :: ('\n' :: (renderItems w ind y ys ++ (mid ++ ']' :: rest))) :=
          skipWs_cons_not (by decide) _
        simp [hcomma, happ2]
    · intro w k v gs ind pre mid rest hf hpre hmid
      match gs with
      | [] =>
        have hfv : fuelJ v ≤ n := by
          rw [show fuelFields v [] = 1 + fuelJ v from by simp [fuelFields]] at hf
          omega
        have happ := ihV w v ind [' '] (mid ++ '\x7d' :: rest) hfv
          (wsAll_cons (by decide) wsAll_nil)
        rw [show renderFields w ind k v [] = List.replicate ind ' ' ++
          ('"' :: (escapeList k.data ++ '"' :: ':' :: ' ' :: renderVal w ind v)) from
          by simp [renderFields]]
        simp only [parseFields, List.cons_append, List.append_assoc, List.singleton_append,
          List.nil_append]
        rw [show skipWs (pre ++ (List.replicate ind ' ' ++ ('"' :: (escapeList k.data ++
          '"' :: ':' :: ' ' :: (renderVal w ind v ++ (mid ++ '\x7d' :: rest)))))) =
          '"' :: (escapeList k.data ++ '"' :: ':' :: ' ' :: (renderVal w ind v ++
            (mid ++ '\x7d' :: rest))) from by
          rw [← List.append_assoc]
          exact skipWs_ws_cons (wsAll_append hpre (wsAll_replicate_space ind)) (by decide) _]
        have hq := parseStrChars_escape k.data
          (':' :: ' ' :: (renderVal w ind v ++ (mid ++ '\x7d' :: rest)))
        have hmid2 : skipWs (mid ++ '\x7d' :: rest) = '\x7d' :: rest :=
          skipWs_ws_cons hmid (by decide) _
        simp only [List.cons_append, List.append_assoc, List.singleton_append,
          List.nil_append] at happ
        simp [hq, happ, hmid2, skipWs, isWsChar, stringMk_data]
      | (k2, v2) :: gs2 =>
        have hfv : fuelJ v ≤ n ∧ fuelFields v2 gs2 ≤ n := by
          rw [show fuelFields v ((k2, v2) :: gs2) = 1 + fuelJ v + fuelFields v2 gs2 from by
            simp [fuelFields]] at hf
          have := fuelFields_pos v2 gs2
          have := fuelJ_pos v
          omega
        have happ := ihV w v ind [' ']
          (',' :: '\n' :: (renderFields w ind k2 v2 gs2 ++ (mid ++ '\x7d' :: rest))) hfv.1
          (wsAll_cons (by decide) wsAll_nil)
        have happ2 := ihF w k2 v2 gs2 ind ['\n'] mid rest hfv.2
          (wsAll_cons (by decide) wsAll_nil) hmid
        rw [show renderFields w ind k v ((k2, v2) :: gs2) = List.replicate ind ' ' ++
          ('"' :: (escapeList k.data ++ '"' :: ':' :: ' ' :: (renderVal w ind v ++
            ',' :: '\n' :: renderFields w ind k2 v2 gs2))) from by simp [renderFields]]
        simp only [parseFields, List.cons_append, List.append_assoc, List.singleton_append,
          List.nil_append]
        rw [show skipWs (pre ++ (List.replicate ind ' ' ++ ('"' :: (escapeList k.data ++
          '"' :: ':' :: ' ' :: (renderVal w ind v ++ (',' :: '\n' ::
            (renderFields w ind k2 v2 gs2 ++ (mid ++ '\x7d' :: rest)))))))) =
          '"' :: (escapeList k.data ++ '"' :: ':' :: ' ' :: (renderVal w ind v ++
            (',' :: '\n' :: (renderFields w ind k2 v2 gs2 ++ (mid ++ '\x7d' :: rest))))) from by
          rw [← List.append_assoc]
          exact skipWs_ws_cons (wsAll_append hpre (wsAll_replicate_space ind)) (by decide) _]
        have hq := parseStrChars_escape k.data
          (':' :: ' ' :: (renderVal w ind v ++ (',' :: '\n' ::
            (renderFields w ind k2 v2 gs2 ++ (mid ++ '\x7d' :: rest)))))
        have hcomma : skipWs (',' :: ('\n' :: (renderFields w ind k2 v2 gs2 ++
            (mid ++ '\x7d' :: rest)))) = ',' :: ('\n' :: (renderFields w ind k2 v2 gs2 ++
            (mid ++ '\x7d' :: rest))) := skipWs_cons_not (by decide) _
        simp only [List.cons_append, List.append_assoc, List.singleton_append,
          List.nil_append] at happ happ2
        simp [hq, happ, happ2, hcomma, skipWs, isWsChar, stringMk_data]

mutual

/-- Rendering a value produces strictly more characters than the parser
fuel it needs. -/
theorem fuelJ_le_renderLen (w ind : Nat) (j : Json) :
    fuelJ j + 1 ≤ (renderVal w ind j).length := by
  cases j with
  | str s => simp [fuelJ, renderVal]
  | bool b => cases b <;> simp [fuelJ, renderVal]
  | arr xs =>
    cases xs with
    | nil => simp [fuelJ, renderVal]
    | cons x xs2 =>
      have h := fuelItems_le_renderLen w (ind + w) x xs2
      simp only [fuelJ, renderVal, List.length_cons, List.length_append,
        List.length_replicate]
      omega
  | obj fs =>
    match fs with
    | [] => simp [fuelJ, renderVal]
    | (k, v) :: gs =>
      have h := fuelFields_le_renderLen w (ind + w) k v gs
      simp only [fuelJ, renderVal, List.length_cons, List.length_append,
        List.length_replicate]
      omega
  termination_by sizeOf j
  decreasing_by all_goals (simp_wf; try omega)

/-- Rendering item lines produces at least the parser fuel they need. -/
theorem fuelItems_le_renderLen (w ind : Nat) (x : Json) (xs : List Json) :
    fuelItems x xs ≤ (renderItems w ind x xs).length := by
  cases xs with
  | nil =>
    have h := fuelJ_le_renderLen w ind x
    simp only [fuelItems, renderItems, List.length_append, List.length_replicate]
    omega
  | cons y ys =>
    have h := fuelJ_le_renderLen w ind x
    have h2 := fuelItems_le_renderLen w ind y ys
    simp only [fuelItems, renderItems, List.length_append, List.length_replicate,
      List.length_cons]
    omega
  termination_by sizeOf x + sizeOf xs
  decreasing_by all_goals (simp_wf; try omega)

/-- Rendering field lines produces at least the parser fuel they need. -/
theorem fuelFields_le_renderLen (w ind : Nat) (k : String) (v : Json)
    (gs : List (String × Json)) :
    fuelFields v gs ≤ (renderFields w ind k v gs).length := by
  match gs with
  | [] =>
    have h := fuelJ_le_renderLen w ind v
    simp only [fuelFields, renderFields, List.length_append, List.length_replicate,
      List.length_cons]
    omega
  | (k2, v2) :: gs2 =>
    have h := fuelJ_le_renderLen w ind v
    have h2 := fuelFields_le_renderLen w ind k2 v2 gs2
    simp only [fuelFields, renderFields, List.length_append, List.length_replicate,
      List.length_cons]
    omega
  termination_by sizeOf v + sizeOf gs
  decreasing_by all_goals (simp_wf; try omega)

end

/-- `JSON.parse` inverts `JSON.stringify(·, null, w)` on every JSON value. -/
theorem parse_render (w : Nat) (j : Json) :
    Json.parse (String.mk (renderVal w 0 j)) = some j := by
  have hlen := fuelJ_le_renderLen w 0 j
  have h := (parse_render_all ((renderVal w 0 j).length + 1)).1 w j 0 [] []
    (by omega) wsAll_nil
  simp only [List.append_nil, List.nil_append] at h
  simp only [Json.parse]
  rw [h]
  simp [skipWs]

/-! ## The Layout Document Model (src/types.ts) -/

/-- `style.theme` enumeration (src/types.ts line 38). -/
inductive ThemeKind where
  | light | dark | accent | glass
  deriving DecidableEq

/-- `style.padding` enumeration (src/types.ts line 39). -/
inductive PaddingSize where
  | small | medium | large
  deriving DecidableEq

/-- `style.alignment` enumeration (src/types.ts line 40). -/
inductive AlignmentKind where
  | left | center | right
  deriving DecidableEq

/-- Per-element typography override (src/types.ts lines 3-8); all fields
optional. -/
structure TextElementStyle where
  fontSize : Option String
  fontWeight : Option String
  color : Option String
  fontFamily : Option String
  deriving DecidableEq

/-- The optional `style.typography` map keyed by title/subtitle/description
(src/types.ts lines 42-46). -/
structure TypographyStyles where
  title : Option TextElementStyle
  subtitle : Option TextElementStyle
  description : Option TextElementStyle
  deriving DecidableEq

/-- A call-to-action button (src/types.ts lines 23-24). -/
structure ButtonContent where
  text : String
  link : String
  ariaLabel : Option String
  deriving DecidableEq

/-- One entry of `content.items` (src/types.ts lines 25-35). -/
structure SectionItem where
  title : Option String
  description : Option String
  icon : Option String
  image : Option String
  price : Option String
  author : Option String
  role : Option String
  date : Option String
  ariaLabel : Option String
  deriving DecidableEq

/-- `LayoutSection.content` (src/types.ts lines 19-36). -/
structure SectionContent where
  title : Option String
  subtitle : Option String
  description : Option String
  primaryButton : Option ButtonContent
  secondaryButton : Option ButtonContent
  items : Option (List SectionItem)
  deriving DecidableEq

/-- `LayoutSection.style` (src/types.ts lines 37-47). -/
structure SectionStyle where
  theme : ThemeKind
  padding : PaddingSize
  alignment : AlignmentKind
  backgroundImage : Option String
  typography : Option TypographyStyles
  deriving DecidableEq

/-- One structural block of the page (src/types.ts lines 16-48).  The `type`
field is a string at runtime; src/types.ts declares a closed enumeration for
it, but values from the AI collaborator and saved projects are arbitrary
strings, which is what the renderer registry lookup and the unknown-type
claims are about. -/
structure LayoutSection where
  id : String
  type : String
  content : SectionContent
  style : SectionStyle
  deriving DecidableEq

/-- `DesignSystem.accessibility` (src/types.ts lines 10-14). -/
structure AccessibilitySettings where
  highContrast : Bool
  reducedMotion : Bool
  showAriaLabels : Bool
  deriving DecidableEq

/-- Global styling tokens (src/types.ts lines 50-55). -/
structure DesignSystem where
  primaryColor : String
  borderRadius : String
  fontFamily : String
  accessibility : AccessibilitySettings
  deriving DecidableEq

/-- The Layout Document: ordered sections plus one design system; this pair
is what `copyToClipboard` serializes (src/App.tsx line 145). -/
structure Document where
  sections : List LayoutSection
  designSystem : DesignSystem
  deriving DecidableEq

/-! ## Structural serialization (the tree `JSON.stringify` walks).
Key order follows the object layout of src/types.ts; optional fields that
are absent (`undefined`) are omitted by `JSON.stringify`. -/

/-- An optional object field: omitted when the value is absent. -/
def optField (key : String) (o : Option Json) : List (String × Json) :=
  match o with
  | none => []
  | some j => [(key, j)]

/-- An optional string-valued object field. -/
def optStr (key : String) (o : Option String) : List (String × Json) :=
  optField key (o.map Json.str)

def themeString : ThemeKind → String
  | .light => "light" | .dark => "dark" | .accent => "accent" | .glass => "glass"

def paddingString : PaddingSize → String
  | .small => "small" | .medium => "medium" | .large => "large"

def alignmentString : AlignmentKind → String
  | .left => "left" | .center => "center" | .right => "right"

def textStyleJson (t : TextElementStyle) : Json :=
  Json.obj (optStr "fontSize" t.fontSize ++ optStr "fontWeight" t.fontWeight ++
    optStr "color" t.color ++ optStr "fontFamily" t.fontFamily)

def typographyJson (t : TypographyStyles) : Json :=
  Json.obj (optField "title" (t.title.map textStyleJson) ++
    optField "subtitle" (t.subtitle.map textStyleJson) ++
    optField "description" (t.description.map textStyleJson))

def buttonJson (b : ButtonContent) : Json :=
  Json.obj ([("text", Json.str b.text), ("link", Json.str b.link)] ++
    optStr "ariaLabel" b.ariaLabel)

def itemJson (it : SectionItem) : Json :=
  Json.obj (optStr "title" it.title ++ optStr "description" it.description ++
    optStr "icon" it.icon ++ optStr "image" it.image ++ optStr "price" it.price ++
    optStr "author" it.author ++ optStr "role" it.role ++ optStr "date" it.date ++
    optStr "ariaLabel" it.ariaLabel)

def contentJson (c : SectionContent) : Json :=
  Json.obj (optStr "title" c.title ++ optStr "subtitle" c.subtitle ++
    optStr "description" c.description ++
    optField "primaryButton" (c.primaryButton.map buttonJson) ++
    optField "secondaryButton" (c.secondaryButton.map buttonJson) ++
    optField "items" (c.items.map (fun l => Json.arr (l.map itemJson))))

def styleJson (s : SectionStyle) : Json :=
  Json.obj ([("theme", Json.str (themeString s.theme)),
    ("padding", Json.str (paddingString s.padding)),
    ("alignment", Json.str (alignmentString s.alignment))] ++
    optStr "backgroundImage" s.backgroundImage ++
    optField "typography" (s.typography.map typographyJson))

/-- One serialized section: deterministic key order `id`, `type`, `content`,
`style` (the declaration order of src/types.ts lines 16-48). -/
def sectionJson (s : LayoutSection) : Json :=
  Json.obj [("id", Json.str s.id), ("type", Json.str s.type),
    ("content", contentJson s.content), ("style", styleJson s.style)]

def accessibilityJson (a : AccessibilitySettings) : Json :=
  Json.obj [("highContrast", Json.bool a.highContrast),
    ("reducedMotion", Json.bool a.reducedMotion),
    ("showAriaLabels", Json.bool a.showAriaLabels)]

def designSystemJson (ds : DesignSystem) : Json :=
  Json.obj [("primaryColor", Json.str ds.primaryColor),
    ("borderRadius", Json.str ds.borderRadius),
    ("fontFamily", Json.str ds.fontFamily),
    ("accessibility", accessibilityJson ds.accessibility)]

/-- The serialized `{ sections, designSystem }` pair of src/App.tsx
lines 145 and 408. -/
def docJson (d : Document) : Json :=
  Json.obj [("sections", Json.arr (d.sections.map sectionJson)),
    ("designSystem", designSystemJson d.designSystem)]

/-- `canonicalJson`: the JSON export
`JSON.stringify({ sections, designSystem }, null, 2)` (src/App.tsx lines 145
and 408): the structural serialization pretty-printed with 2-space
indentation. -/
def canonicalJson (d : Document) : String :=
  String.mk (renderVal 2 0 (docJson d))

/-! ## Re-importing the canonical JSON.
Modelled from the spec: the repository under src/ only produces the
canonical JSON (there is no import code in src/App.tsx); the spec states
that "re-parsing it and feeding it back through `replaceAll` must reproduce
an observably identical Document".  The decoders below read the schema of
src/types.ts back out of a parsed JSON tree by key lookup, ignoring unknown
extra fields, as the spec requires of loaded records. -/

/-- First-match association lookup on the fields of a JSON object. -/
def jLookup (key : String) : List (String × Json) → Option Json
  | [] => none
  | (k, v) :: fs => if k = key then some v else jLookup key fs

/-- Decode an optional string field: absence is `none`, a non-string value
is a schema error. -/
def decodeOptStr : Option Json → Option (Option String)
  | none => some none
  | some (Json.str s) => some (some s)
  | some _ => none

/-- Decode a required string field. -/
def decodeStr : Option Json → Option String
  | some (Json.str s) => some s
  | _ => none

/-- Decode a required boolean field. -/
def decodeBool : Option Json → Option Bool
  | some (Json.bool b) => some b
  | _ => none

/-- Decode an optional field with the given value decoder. -/
def decodeOpt (f : Json → Option α) : Option Json → Option (Option α)
  | none => some none
  | some j => (f j).map some

/-- Effectful map over a list in the `Option` monad. -/
def optMapM (f : α → Option β) : List α → Option (List β)
  | [] => some []
  | x :: xs => do
    let y ← f x
    let ys ← optMapM f xs
    some (y :: ys)

def themeOfString : String → Option ThemeKind
  | "light" => some .light
  | "dark" => some .dark
  | "accent" => some .accent
  | "glass" => some .glass
  | _ => none

def paddingOfString : String → Option PaddingSize
  | "small" => some .small
  | "medium" => some .medium
  | "large" => some .large
  | _ => none

def alignmentOfString : String → Option AlignmentKind
  | "left" => some .left
  | "center" => some .center
  | "right" => some .right
  | _ => none

def parseTextStyle : Json → Option TextElementStyle
  | Json.obj fs => do
    let fontSize ← decodeOptStr (jLookup "fontSize" fs)
    let fontWeight ← decodeOptStr (jLookup "fontWeight" fs)
    let color ← decodeOptStr (jLookup "color" fs)
    let fontFamily ← decodeOptStr (jLookup "fontFamily" fs)
    some ⟨fontSize, fontWeight, color, fontFamily⟩
  | _ => none

def parseTypography : Json → Option TypographyStyles
  | Json.obj fs => do
    let t ← decodeOpt parseTextStyle (jLookup "title" fs)
    let s ← decodeOpt parseTextStyle (jLookup "subtitle" fs)
    let d ← decodeOpt parseTextStyle (jLookup "description" fs)
    some ⟨t, s, d⟩
  | _ => none

def parseButton : Json → Option ButtonContent
  | Json.obj fs => do
    let text ← decodeStr (jLookup "text" fs)
    let link ← decodeStr (jLookup "link" fs)
    let aria ← decodeOptStr (jLookup "ariaLabel" fs)
    some ⟨text, link, aria⟩
  | _ => none

def parseItem : Json → Option SectionItem
  | Json.obj fs => do
    let title ← decodeOptStr (jLookup "title" fs)
    let description ← decodeOptStr (jLookup "description" fs)
    let icon ← decodeOptStr (jLookup "icon" fs)
    let image ← decodeOptStr (jLookup "image" fs)
    let price ← decodeOptStr (jLookup "price" fs)
    let author ← decodeOptStr (jLookup "author" fs)
    let role ← decodeOptStr (jLookup "role" fs)
    let date ← decodeOptStr (jLookup "date" fs)
    let aria ← decodeOptStr (jLookup "ariaLabel" fs)
    some ⟨title, description, icon, image, price, author, role, date, aria⟩
  | _ => none

def parseItemList : Json → Option (List SectionItem)
  | Json.arr xs => optMapM parseItem xs
  | _ => none

def parseContent : Json → Option SectionContent
  | Json.obj fs => do
    let title ← decodeOptStr (jLookup "title" fs)
    let subtitle ← decodeOptStr (jLookup "subtitle" fs)
    let description ← decodeOptStr (jLookup "description" fs)
    let pb ← decodeOpt parseButton (jLookup "primaryButton" fs)
    let sb ← decodeOpt parseButton (jLookup "secondaryButton" fs)
    let items ← decodeOpt parseItemList (jLookup "items" fs)
    some ⟨title, subtitle, description, pb, sb, items⟩
  | _ => none

def parseStyle : Json → Option SectionStyle
  | Json.obj fs => do
    let theme ← (decodeStr (jLookup "theme" fs)).bind themeOfString
    let padding ← (decodeStr (jLookup "padding" fs)).bind paddingOfString
    let alignment ← (decodeStr (jLookup "alignment" fs)).bind alignmentOfString
    let bg ← decodeOptStr (jLookup "backgroundImage" fs)
    let typ ← decodeOpt parseTypography (jLookup "typography" fs)
    some ⟨theme, padding, alignment, bg, typ⟩
  | _ => none

def parseSection : Json → Option LayoutSection
  | Json.obj fs => do
    let id ← decodeStr (jLookup "id" fs)
    let ty ← decodeStr (jLookup "type" fs)
    let content ← (jLookup "content" fs).bind parseContent
    let style ← (jLookup "style" fs).bind parseStyle
    some ⟨id, ty, content, style⟩
  | _ => none

def parseSectionList : Json → Option (List LayoutSection)
  | Json.arr xs => optMapM parseSection xs
  | _ => none

def parseAccessibility : Json → Option AccessibilitySettings
  | Json.obj fs => do
    let hc ← decodeBool (jLookup "highContrast" fs)
    let rm ← decodeBool (jLookup "reducedMotion" fs)
    let al ← decodeBool (jLookup "showAriaLabels" fs)
    some ⟨hc, rm, al⟩
  | _ => none

def parseDesignSystem : Json → Option DesignSystem
  | Json.obj fs => do
    let pc ← decodeStr (jLookup "primaryColor" fs)
    let br ← decodeStr (jLookup "borderRadius" fs)
    let ff ← decodeStr (jLookup "fontFamily" fs)
    let acc ← (jLookup "accessibility" fs).bind parseAccessibility
    some ⟨pc, br, ff, acc⟩
  | _ => none

def parseDocJson : Json → Option Document
  | Json.obj fs => do
    let sections ← (jLookup "sections" fs).bind parseSectionList
    let ds ← (jLookup "designSystem" fs).bind parseDesignSystem
    some ⟨sections, ds⟩
  | _ => none

/-- Re-import a canonical JSON text: parse the text, then decode the
Document and feed it through `replaceAll` (which replaces state wholesale,
so the decoded Document is the resulting Document). -/
def parseDocument (s : String) : Option Document :=
  (Json.parse s).bind parseDocJson

/-! ## Decoding inverts the structural serialization. -/

theorem jLookup_nil (key : String) : jLookup key [] = none := rfl

theorem jLookup_skip {key2 key : String} (h : ¬key2 = key) (o : Option Json)
    (rest : List (String × Json)) :
    jLookup key (optField key2 o ++ rest) = jLookup key rest := by
  cases o <;> simp [optField, jLookup, h]

theorem jLookup_skip_last {key2 key : String} (h : ¬key2 = key) (o : Option Json) :
    jLookup key (optField key2 o) = none := by
  cases o <;> simp [optField, jLookup, h]

theorem jLookup_hit {key : String} (o : Option Json) {rest : List (String × Json)}
    (h : jLookup key rest = none) :
    jLookup key (optField key o ++ rest) = o := by
  cases o <;> simp [optField, jLookup, h]

theorem jLookup_hit_last {key : String} (o : Option Json) :
    jLookup key (optField key o) = o := by
  cases o <;> simp [optField, jLookup]

theorem decodeOptStr_map (o : Option String) : decodeOptStr (o.map Json.str) = some o := by
  cases o <;> rfl

theorem decodeOpt_map {α : Type} (f : Json → Option α) (g : α → Json)
    (h : ∀ a, f (g a) = some a) (o : Option α) : decodeOpt f (o.map g) = some o := by
  cases o <;> simp [decodeOpt, h]

theorem optMapM_map (f : β → Option α) (g : α → β) (h : ∀ a, f (g a) = some a)
    (l : List α) : optMapM f (l.map g) = some l := by
  induction l with
  | nil => rfl
  | cons x xs ih => simp [optMapM, h, ih]

theorem themeOfString_themeString (t : ThemeKind) : themeOfString (themeString t) = some t := by
  cases t <;> rfl

theorem paddingOfString_paddingString (p : PaddingSize) :
    paddingOfString (paddingString p) = some p := by
  cases p <;> rfl

theorem alignmentOfString_alignmentString (a : AlignmentKind) :
    alignmentOfString (alignmentString a) = some a := by
  cases a <;> rfl

theorem parseTextStyle_rt (t : TextElementStyle) :
    parseTextStyle (textStyleJson t) = some t := by
  obtain ⟨f1, f2, f3, f4⟩ := t
  simp [textStyleJson, parseTextStyle, optStr, List.append_assoc, jLookup_skip,
    jLookup_hit, jLookup_skip_last, jLookup_hit_last, jLookup_nil, decodeOptStr_map]

theorem parseTypography_rt (t : TypographyStyles) :
    parseTypography (typographyJson t) = some t := by
  obtain ⟨t1, t2, t3⟩ := t
  have hd : ∀ o : Option TextElementStyle,
      decodeOpt parseTextStyle (o.map textStyleJson) = some o :=
    decodeOpt_map _ _ parseTextStyle_rt
  simp [typographyJson, parseTypography, List.append_assoc, jLookup_skip,
    jLookup_hit, jLookup_skip_last, jLookup_hit_last, jLookup_nil, hd]

theorem parseButton_rt (b : ButtonContent) : parseButton (buttonJson b) = some b := by
  obtain ⟨t, l, a⟩ := b
  simp [buttonJson, parseButton, optStr, List.append_assoc, jLookup, jLookup_skip,
    jLookup_hit, jLookup_skip_last, jLookup_hit_last, jLookup_nil, decodeOptStr_map,
    decodeStr]

theorem parseItem_rt (it : SectionItem) : parseItem (itemJson it) = some it := by
  obtain ⟨a1, a2, a3, a4, a5, a6, a7, a8, a9⟩ := it
  simp [itemJson, parseItem, optStr, List.append_assoc, jLookup_skip, jLookup_hit,
    jLookup_skip_last, jLookup_hit_last, jLookup_nil, decodeOptStr_map]

theorem parseContent_rt (c : SectionContent) : parseContent (contentJson c) = some c := by
  obtain ⟨t, s, d, pb, sb, its⟩ := c
  have hb : ∀ o : Option ButtonContent,
      decodeOpt parseButton (o.map buttonJson) = some o :=
    decodeOpt_map _ _ parseButton_rt
  have hi : ∀ o : Option (List SectionItem),
      decodeOpt parseItemList (o.map (fun l => Json.arr (l.map itemJson))) = some o := by
    intro o
    cases o with
    | none => rfl
    | some l => simp [decodeOpt, parseItemList, optMapM_map _ _ parseItem_rt]
  simp [contentJson, parseContent, optStr, List.append_assoc, jLookup_skip,
    jLookup_hit, jLookup_skip_last, jLookup_hit_last, jLookup_nil, decodeOptStr_map,
    hb, hi]

theorem parseStyle_rt (s : SectionStyle) : parseStyle (styleJson s) = some s := by
  obtain ⟨th, p, al, bg, ty⟩ := s
  have ht : ∀ o : Option TypographyStyles,
      decodeOpt parseTypography (o.map typographyJson) = some o :=
    decodeOpt_map _ _ parseTypography_rt
  simp [styleJson, parseStyle, optStr, List.append_assoc, jLookup, jLookup_skip,
    jLookup_hit, jLookup_skip_last, jLookup_hit_last, jLookup_nil, decodeOptStr_map,
    decodeStr, ht, themeOfString_themeString, paddingOfString_paddingString,
    alignmentOfString_alignmentString]

theorem parseSection_rt (s : LayoutSection) : parseSection (sectionJson s) = some s := by
  obtain ⟨id, ty, c, st⟩ := s
  simp [sectionJson, parseSection, jLookup, decodeStr, parseContent_rt, parseStyle_rt]

theorem parseAccessibility_rt (a : AccessibilitySettings) :
    parseAccessibility (accessibilityJson a) = some a := by
  obtain ⟨h, r, l⟩ := a
  simp [accessibilityJson, parseAccessibility, jLookup, decodeBool]

theorem parseDesignSystem_rt (ds : DesignSystem) :
    parseDesignSystem (designSystemJson ds) = some ds := by
  obtain ⟨pc, br, ff, acc⟩ := ds
  simp [designSystemJson, parseDesignSystem, jLookup, decodeStr, parseAccessibility_rt]

theorem parseDocJson_rt (d : Document) : parseDocJson (docJson d) = some d := by
  obtain ⟨secs, ds⟩ := d
  simp [docJson, parseDocJson, jLookup, parseSectionList, parseDesignSystem_rt,
    optMapM_map _ _ parseSection_rt]

/-- Round trip at the document level: re-parsing the canonical JSON text of
any Document recovers the Document. -/
theorem parseDocument_canonicalJson (d : Document) :
    parseDocument (canonicalJson d) = some d := by
  unfold parseDocument canonicalJson
  rw [parse_render]
  simp [parseDocJson_rt]

/-! ## Mutation operations and collaborators (src/App.tsx) -/

/-- The closed element parameter of the typography patch
(src/App.tsx line 122). -/
inductive TextElement where
  | title | subtitle | description
  deriving DecidableEq

def emptyTextStyle : TextElementStyle := ⟨none, none, none, none⟩

def emptyTypography : TypographyStyles := ⟨none, none, none⟩

def getTypoElement (t : TypographyStyles) : TextElement → Option TextElementStyle
  | .title => t.title
  | .subtitle => t.subtitle
  | .description => t.description

def setTypoElement (t : TypographyStyles) : TextElement → TextElementStyle → TypographyStyles
  | .title, v => { t with title := some v }
  | .subtitle, v => { t with subtitle := some v }
  | .description, v => { t with description := some v }

/-- A present field of the partial style overrides; an absent one keeps the
old value (the Javascript spread `{ ...old, ...patch }` on `Partial` data
whose present keys are defined). -/
def overrideStr : Option String → Option String → Option String
  | some v, _ => some v
  | none, old => old

/-- The per-field merge `{ ...(currentTypography[element] || {}), ...style }`
of src/App.tsx line 130. -/
def mergeTextStyle (old p : TextElementStyle) : TextElementStyle :=
  ⟨overrideStr p.fontSize old.fontSize, overrideStr p.fontWeight old.fontWeight,
    overrideStr p.color old.color, overrideStr p.fontFamily old.fontFamily⟩

/-- `updateSectionTypography` (src/App.tsx lines 122-134): map over the
sections, leave non-matching ids untouched, and merge the patch into
`style.typography[element]`, creating the nested map and entry if absent. -/
def updateSectionTypography (sections : List LayoutSection) (id : String)
    (element : TextElement) (style : TextElementStyle) : List LayoutSection :=
  sections.map (fun s =>
    if s.id ≠ id then s
    else
      let currentTypography := s.style.typography.getD emptyTypography
      let oldElem := (getTypoElement currentTypography element).getD emptyTextStyle
      let newTypo := setTypoElement currentTypography element (mergeTextStyle oldElem style)
      { s with style := { s.style with typography := some newTypo } })

/-- The accessibility keys toggled by the Design panel
(src/App.tsx lines 212-216). -/
inductive AccessibilityKey where
  | highContrast | reducedMotion | showAriaLabels
  deriving DecidableEq

def getAccessibility (a : AccessibilitySettings) : AccessibilityKey → Bool
  | .highContrast => a.highContrast
  | .reducedMotion => a.reducedMotion
  | .showAriaLabels => a.showAriaLabels

def setAccessibility (a : AccessibilitySettings) : AccessibilityKey → Bool → AccessibilitySettings
  | .highContrast, b => { a with highContrast := b }
  | .reducedMotion, b => { a with reducedMotion := b }
  | .showAriaLabels, b => { a with showAriaLabels := b }

/-- The accessibility toggle
`setDesignSystem({...designSystem, accessibility: {...designSystem.accessibility,
[key]: !designSystem.accessibility[key]}})` (src/App.tsx line 220): a
one-level-deep merge into the nested record. -/
def toggleAccessibility (ds : DesignSystem) (key : AccessibilityKey) : DesignSystem :=
  { ds with accessibility :=
      setAccessibility ds.accessibility key (!(getAccessibility ds.accessibility key)) }

/-- The renderer components imported from AdaptiveComponents
(src/App.tsx lines 7-10), as abstract capabilities. -/
inductive SectionComponent where
  | Navbar | Hero | Features | Pricing | Testimonials | Footer | Contact
  | CTA | Stats | FAQ | LogoCloud | Newsletter | Team | Timeline
  deriving DecidableEq

/-- The section renderer registry (src/App.tsx lines 14-16), in source
order. -/
def SECTION_COMPONENTS : List (String × SectionComponent) :=
  [("navbar", .Navbar), ("hero", .Hero), ("features", .Features),
   ("pricing", .Pricing), ("testimonials", .Testimonials), ("footer", .Footer),
   ("contact", .Contact), ("cta", .CTA), ("stats", .Stats), ("faq", .FAQ),
   ("logoCloud", .LogoCloud), ("newsletter", .Newsletter), ("team", .Team),
   ("timeline", .Timeline)]

def assocLookup (ty : String) : List (String × SectionComponent) → Option SectionComponent
  | [] => none
  | (k, c) :: rest => if k = ty then some c else assocLookup ty rest

/-- The own-entry part of `SECTION_COMPONENTS[section.type]`
(src/App.tsx line 312): the registered entries of the object literal;
`none` when no own key matches.  The full Javascript property access also
walks the prototype chain — see `jsPropertyAccess`. -/
def lookupComponent (ty : String) : Option SectionComponent :=
  assocLookup ty SECTION_COMPONENTS

/-- The property names a string index into a plain object literal can still
hit after missing every own key: the inherited members of
`Object.prototype`.  Every one of them is a function or an object, hence
truthy. -/
def OBJECT_PROTOTYPE_KEYS : List String :=
  ["constructor", "hasOwnProperty", "isPrototypeOf", "propertyIsEnumerable",
   "toLocaleString", "toString", "valueOf", "__defineGetter__",
   "__defineSetter__", "__lookupGetter__", "__lookupSetter__", "__proto__"]

/-- What the Javascript property access `SECTION_COMPONENTS[section.type]`
(src/App.tsx line 312) evaluates to: an own registered entry; otherwise a
truthy inherited `Object.prototype` member; otherwise `undefined`. -/
inductive PropertyAccessResult where
  | component : SectionComponent → PropertyAccessResult
  | inherited : PropertyAccessResult
  | undef : PropertyAccessResult
  deriving DecidableEq

def jsPropertyAccess (ty : String) : PropertyAccessResult :=
  match lookupComponent ty with
  | some c => PropertyAccessResult.component c
  | none =>
    if ty ∈ OBJECT_PROTOTYPE_KEYS then PropertyAccessResult.inherited
    else PropertyAccessResult.undef

/-- The preview/generation loop (src/App.tsx lines 311-318) under the
Javascript property-access semantics.  A registered component produces a
rendered entry; `undefined` is falsy, so the ternary yields `null` and the
section is dropped; a truthy inherited `Object.prototype` member takes the
render branch with a value that is not a React component, and the render
throws — the whole generation aborts (`none`) instead of skipping. -/
def renderSections : List LayoutSection → Option (List (LayoutSection × SectionComponent))
  | [] => some []
  | s :: ss =>
    match jsPropertyAccess s.type with
    | PropertyAccessResult.component c =>
        (renderSections ss).map (fun es => (s, c) :: es)
    | PropertyAccessResult.inherited => none
    | PropertyAccessResult.undef => renderSections ss

/-- The closed `LayoutSection.type` enumeration of src/types.ts line 18. -/
inductive SectionType where
  | navbar | hero | features | stats | pricing | testimonials | faq | footer
  | cta | contact | logoCloud | newsletter | team | timeline
  deriving DecidableEq

def sectionTypeString : SectionType → String
  | .navbar => "navbar" | .hero => "hero" | .features => "features"
  | .stats => "stats" | .pricing => "pricing" | .testimonials => "testimonials"
  | .faq => "faq" | .footer => "footer" | .cta => "cta" | .contact => "contact"
  | .logoCloud => "logoCloud" | .newsletter => "newsletter" | .team => "team"
  | .timeline => "timeline"

/-- What the AI collaborator resolves with: `{ sections, designSystem }`
(src/services/gemini contract, spec section 6). -/
structure GenResult where
  sections : List LayoutSection
  designSystem : DesignSystem
  deriving DecidableEq

/-- The document part of the application state: the `sections` and
`designSystem` state cells (src/App.tsx lines 55-65). -/
structure AppDocState where
  sections : List LayoutSection
  designSystem : DesignSystem
  deriving DecidableEq

/-- The Javascript `String.prototype.trim()` guard value: drop leading and
trailing whitespace. -/
def jsTrim (s : String) : String :=
  String.mk (((s.data.dropWhile Char.isWhitespace).reverse.dropWhile
    Char.isWhitespace).reverse)

/-- `handleGenerate` (src/App.tsx lines 99-110): guard on a blank prompt,
await the collaborator, and on success replace both state cells; an
exception reaches the catch block and leaves both cells untouched.  The
collaborator outcome (resolution or rejection) is the `Except` argument. -/
def handleGenerate (prompt : String) (st : AppDocState)
    (outcome : Except String GenResult) : AppDocState :=
  if jsTrim prompt = "" then st
  else
    match outcome with
    | .ok data => { sections := data.sections, designSystem := data.designSystem }
    | .error _ => st

/-- `handleRefine` (src/App.tsx lines 112-120): guard on a blank prompt,
await the collaborator, and on success replace only `sections`; the
response's `designSystem` is not applied. -/
def handleRefine (refinementPrompt : String) (st : AppDocState)
    (outcome : Except String GenResult) : AppDocState :=
  if jsTrim refinementPrompt = "" then st
  else
    match outcome with
    | .ok data => { st with sections := data.sections }
    | .error _ => st

/-- The regex match of `hexToRgb` (src/App.tsx line 49):
`/^#?([a-f\d]{2})([a-f\d]{2})([a-f\d]{2})$/i` — an optional leading `#`
followed by exactly six case-insensitive hex digits. -/
def hexMatch (hex : String) : Option (Char × Char × Char × Char × Char × Char) :=
  let cs :=
    match hex.data with
    | '#' :: rest => rest
    | cs => cs
  match cs with
  | [a, b, c, d, e, f] =>
    if isHexDigitJS a && isHexDigitJS b && isHexDigitJS c && isHexDigitJS d &&
        isHexDigitJS e && isHexDigitJS f then
      some (a, b, c, d, e, f)
    else none
  | _ => none

/-- `parseInt` of one captured two-digit hex group (src/App.tsx line 50). -/
def byteVal (hi lo : Char) : Nat := 16 * hexDigitVal hi + hexDigitVal lo

/-- `hexToRgb` (src/App.tsx lines 48-51). -/
def hexToRgb (hex : String) : String :=
  match hexMatch hex with
  | some (a, b, c, d, e, f) =>
      toString (byteVal a b) ++ ", " ++ toString (byteVal c d) ++ ", " ++
        toString (byteVal e f)
  | none => "79, 70, 229"

/-- The initial Design System (src/App.tsx lines 56-65): primaryColor
`#4f46e5`, borderRadius `0.75rem`, fontFamily `Inter`, accessibility
`{highContrast: false, reducedMotion: false, showAriaLabels: true}`. -/
def defaultDesignSystem : DesignSystem :=
  ⟨"#4f46e5", "0.75rem", "Inter", ⟨false, false, true⟩⟩

/-- The document-level view of the typography patch: `setSections` maps the
updater over the sections cell and leaves the designSystem cell untouched
(src/App.tsx lines 122-134). -/
def patchTypography (d : Document) (id : String) (element : TextElement)
    (style : TextElementStyle) : Document :=
  { d with sections := updateSectionTypography d.sections id element style }

/-- Keys of a JSON object, in emission order. -/
def jsonKeys : Json → List String
  | Json.obj fs => fs.map Prod.fst
  | _ => []

/-! Concrete sample data for witnesses. -/

def sampleTypography : TypographyStyles := ⟨some ⟨some "2rem", none, none, none⟩, none, none⟩

def sampleSection : LayoutSection :=
  ⟨"hero-1", "hero", ⟨some "Welcome", none, none, none, none, none⟩,
    ⟨.dark, .large, .center, none, some sampleTypography⟩⟩

def footerSection : LayoutSection :=
  ⟨"footer-1", "footer", ⟨none, none, none, none, none, none⟩,
    ⟨.light, .small, .left, none, none⟩⟩

def unknownSection : LayoutSection :=
  ⟨"mystery-1", "unknownFutureType", ⟨none, none, none, none, none, none⟩,
    ⟨.light, .medium, .center, none, none⟩⟩

def constructorSection : LayoutSection :=
  ⟨"proto-1", "constructor", ⟨none, none, none, none, none, none⟩,
    ⟨.light, .medium, .center, none, none⟩⟩

def sampleDoc : Document := ⟨[sampleSection], defaultDesignSystem⟩

/-- Claim C1: for every valid Document D, parsing the canonicalJson text
produced for D yields a Document structurally equal to D — same section ids,
same field values, same section order. -/
theorem claim_C1 (d : Document) : parseDocument (canonicalJson d) = some d :=
  parseDocument_canonicalJson d

/-- Claim C2: the typography patch merges per field: for a section with the
given id, the patched document keeps every other part of the section and the
design system, keeps the other typography elements, and sets the patched
element to the union of the previously set fields and the fields of the
patch (patch fields winning), creating the nested map and entry when
absent. -/
theorem claim_C2 (d : Document) (id : String) (element : TextElement)
    (p : TextElementStyle) (i : Nat) (s : LayoutSection)
    (hs : d.sections[i]? = some s) (hid : s.id = id) :
    ∃ out, (patchTypography d id element p).sections[i]? = some out ∧
      (patchTypography d id element p).designSystem = d.designSystem ∧
      out.id = s.id ∧ out.type = s.type ∧ out.content = s.content ∧
      out.style.theme = s.style.theme ∧ out.style.padding = s.style.padding ∧
      out.style.alignment = s.style.alignment ∧
      out.style.backgroundImage = s.style.backgroundImage ∧
      ∃ typ, out.style.typography = some typ ∧
        (∀ e2, e2 ≠ element → getTypoElement typ e2 =
          getTypoElement (s.style.typography.getD emptyTypography) e2) ∧
        ∃ el, getTypoElement typ element = some el ∧
          el.fontSize = overrideStr p.fontSize
            ((getTypoElement (s.style.typography.getD emptyTypography) element).getD
              emptyTextStyle).fontSize ∧
          el.fontWeight = overrideStr p.fontWeight
            ((getTypoElement (s.style.typography.getD emptyTypography) element).getD
              emptyTextStyle).fontWeight ∧
          el.color = overrideStr p.color
            ((getTypoElement (s.style.typography.getD emptyTypography) element).getD
              emptyTextStyle).color ∧
          el.fontFamily = overrideStr p.fontFamily
            ((getTypoElement (s.style.typography.getD emptyTypography) element).getD
              emptyTextStyle).fontFamily := by
  refine ⟨{ s with style := { s.style with typography := some (setTypoElement
      (s.style.typography.getD emptyTypography) element
      (mergeTextStyle ((getTypoElement (s.style.typography.getD emptyTypography)
        element).getD emptyTextStyle) p)) } }, ?_, rfl, rfl, rfl, rfl, rfl, rfl, rfl, rfl,
    setTypoElement (s.style.typography.getD emptyTypography) element
      (mergeTextStyle ((getTypoElement (s.style.typography.getD emptyTypography)
        element).getD emptyTextStyle) p), rfl, ?_,
    mergeTextStyle ((getTypoElement (s.style.typography.getD emptyTypography)
      element).getD emptyTextStyle) p, ?_, rfl, rfl, rfl, rfl⟩
  · simp only [patchTypography, updateSectionTypography, List.getElem?_map, hs]
    simp [hid]
  · intro e2 he2
    cases element <;> cases e2 <;> simp_all [setTypoElement, getTypoElement]
  · cases element <;> rfl

/-- Claim C2 witness: the spec's own example — `typography.title =
{fontSize: "2rem"}` patched with `{color: "#fff"}` yields
`{fontSize: "2rem", color: "#fff"}`. -/
theorem claim_C2_witness :
    ∃ out, (patchTypography sampleDoc "hero-1" TextElement.title
        ⟨none, none, some "#fff", none⟩).sections[0]? = some out ∧
      (patchTypography sampleDoc "hero-1" TextElement.title
        ⟨none, none, some "#fff", none⟩).designSystem = sampleDoc.designSystem ∧
      out.id = sampleSection.id ∧ out.type = sampleSection.type ∧
      out.content = sampleSection.content ∧
      out.style.theme = sampleSection.style.theme ∧
      out.style.padding = sampleSection.style.padding ∧
      out.style.alignment = sampleSection.style.alignment ∧
      out.style.backgroundImage = sampleSection.style.backgroundImage ∧
      ∃ typ, out.style.typography = some typ ∧
        (∀ e2, e2 ≠ TextElement.title → getTypoElement typ e2 =
          getTypoElement (sampleSection.style.typography.getD emptyTypography) e2) ∧
        ∃ el, getTypoElement typ TextElement.title = some el ∧
          el.fontSize = overrideStr none
            ((getTypoElement (sampleSection.style.typography.getD emptyTypography)
              TextElement.title).getD emptyTextStyle).fontSize ∧
          el.fontWeight = overrideStr none
            ((getTypoElement (sampleSection.style.typography.getD emptyTypography)
              TextElement.title).getD emptyTextStyle).fontWeight ∧
          el.color = overrideStr (some "#fff")
            ((getTypoElement (sampleSection.style.typography.getD emptyTypography)
              TextElement.title).getD emptyTextStyle).color ∧
          el.fontFamily = overrideStr none
            ((getTypoElement (sampleSection.style.typography.getD emptyTypography)
              TextElement.title).getD emptyTextStyle).fontFamily :=
  claim_C2 sampleDoc "hero-1" TextElement.title ⟨none, none, some "#fff", none⟩ 0
    sampleSection (by rfl) (by rfl)

/-- Claim C3: patching typography with an id that matches no section is a
silent no-op: the resulting Document is equal to the input Document. -/
theorem claim_C3 (d : Document) (id : String) (element : TextElement)
    (p : TextElementStyle) (h : ∀ s ∈ d.sections, s.id ≠ id) :
    patchTypography d id element p = d := by
  obtain ⟨secs, ds⟩ := d
  simp only [patchTypography, updateSectionTypography]
  congr 1
  induction secs with
  | nil => rfl
  | cons s ss ih =>
    have hs : s.id ≠ id := h s (List.mem_cons_self s ss)
    simp only [List.map_cons, if_pos hs]
    rw [ih (fun x hx => h x (List.mem_cons_of_mem s hx))]

/-- Claim C3 witness: patching a stale id on a concrete one-section document
returns the document unchanged. -/
theorem claim_C3_witness :
    patchTypography sampleDoc "nonexistent" TextElement.title
      ⟨none, none, some "#fff", none⟩ = sampleDoc :=
  claim_C3 sampleDoc "nonexistent" TextElement.title ⟨none, none, some "#fff", none⟩
    (by decide)

/-- Claim C4: the Design System accessibility toggle merges one level deep:
toggling any one flag flips exactly that flag and preserves the other two
flags and the top-level primaryColor, borderRadius and fontFamily. -/
theorem claim_C4 (ds : DesignSystem) (key : AccessibilityKey) :
    (toggleAccessibility ds key).primaryColor = ds.primaryColor ∧
    (toggleAccessibility ds key).borderRadius = ds.borderRadius ∧
    (toggleAccessibility ds key).fontFamily = ds.fontFamily ∧
    getAccessibility (toggleAccessibility ds key).accessibility key =
      !(getAccessibility ds.accessibility key) ∧
    ∀ k2, k2 ≠ key → getAccessibility (toggleAccessibility ds key).accessibility k2 =
      getAccessibility ds.accessibility k2 := by
  refine ⟨rfl, rfl, rfl, ?_, ?_⟩
  · cases key <;> simp [toggleAccessibility, getAccessibility, setAccessibility]
  · intro k2 hk
    cases key <;> cases k2 <;>
      simp_all [toggleAccessibility, getAccessibility, setAccessibility]

/-- Claim C4 witness: toggling highContrast on the initial design system
leaves reducedMotion unchanged. -/
theorem claim_C4_witness :
    getAccessibility (toggleAccessibility defaultDesignSystem
      AccessibilityKey.highContrast).accessibility AccessibilityKey.reducedMotion =
    getAccessibility defaultDesignSystem.accessibility AccessibilityKey.reducedMotion :=
  (claim_C4 defaultDesignSystem AccessibilityKey.highContrast).2.2.2.2
    AccessibilityKey.reducedMotion (by decide)

/-- Claim C5: canonicalJson is the structural serialization of
`{sections, designSystem}` pretty-printed with 2-space indentation (the
parse of the text is exactly the structural tree), and each serialized
section has the deterministic key order id, type, content, style — content
before style. -/
theorem claim_C5 (d : Document) :
    canonicalJson d = String.mk (renderVal 2 0 (docJson d)) ∧
    Json.parse (canonicalJson d) = some (docJson d) ∧
    jsonKeys (docJson d) = ["sections", "designSystem"] ∧
    ∀ s : LayoutSection, jsonKeys (sectionJson s) = ["id", "type", "content", "style"] ∧
      List.indexOf "content" (jsonKeys (sectionJson s)) <
        List.indexOf "style" (jsonKeys (sectionJson s)) := by
  refine ⟨rfl, parse_render 2 (docJson d), rfl, fun s => ⟨rfl, ?_⟩⟩
  show List.indexOf "content" ["id", "type", "content", "style"] <
    List.indexOf "style" ["id", "type", "content", "style"]
  decide

/-- Claim C6 fails on the code: the registry access is a Javascript
object-literal property access, so a section whose type is an inherited
`Object.prototype` property name — here `"constructor"`, which has no
registered renderer — is truthy at src/App.tsx line 312, the ternary at
line 313 takes the render branch with a value that is not a React
component, and the render throws: generation aborts with the other
sections' entries lost, instead of the section being "simply absent".  For
an ordinary unregistered type such as `"unknownFutureType"` the access is
`undefined` and the skip the claim describes does happen. -/
theorem claim_C6 :
    lookupComponent "constructor" = none ∧
    jsPropertyAccess "constructor" = PropertyAccessResult.inherited ∧
    renderSections [sampleSection, constructorSection, footerSection] = none ∧
    renderSections [sampleSection, unknownSection, footerSection] =
      some [(sampleSection, SectionComponent.Hero),
        (footerSection, SectionComponent.Footer)] := by
  refine ⟨by decide, by decide, by decide, by decide⟩

/-- Claim C7: if the AI generation collaborator rejects, the Document is
left exactly as it was — neither sections nor design system changes — and a
successful generation applies both parts together, never one without the
other. -/
theorem claim_C7 (prompt : String) (st : AppDocState) (err : String) :
    handleGenerate prompt st (Except.error err) = st ∧
    (jsTrim prompt ≠ "" → ∀ r, handleGenerate prompt st (Except.ok r) =
      ⟨r.sections, r.designSystem⟩) := by
  constructor
  · by_cases h : jsTrim prompt = "" <;> simp [handleGenerate, h]
  · intro h r
    simp [handleGenerate, h]

/-- Claim C7 witness: a failed generation leaves a concrete document state
untouched, and a successful one replaces both cells. -/
theorem claim_C7_witness :
    handleGenerate "a landing page" ⟨[sampleSection], defaultDesignSystem⟩
      (Except.error "ai call rejected") = ⟨[sampleSection], defaultDesignSystem⟩ ∧
    handleGenerate "a landing page" ⟨[sampleSection], defaultDesignSystem⟩
      (Except.ok ⟨[footerSection], defaultDesignSystem⟩) =
      ⟨[footerSection], defaultDesignSystem⟩ :=
  ⟨(claim_C7 "a landing page" ⟨[sampleSection], defaultDesignSystem⟩
      "ai call rejected").1,
    (claim_C7 "a landing page" ⟨[sampleSection], defaultDesignSystem⟩ "x").2
      (by decide) ⟨[footerSection], defaultDesignSystem⟩⟩

/-- Claim C8: the renderer registry is total over the closed 14-value type
enumeration of src/types.ts: every enumerated type string has a registered
component. -/
theorem claim_C8 : ∀ t : SectionType, (lookupComponent (sectionTypeString t)).isSome = true := by
  intro t
  cases t <;> rfl

/-- Claim C9: an accepted refinement replaces the sections wholesale with
the returned sections and leaves the design system of the state unchanged,
although the collaborator's result also carries a designSystem. -/
theorem claim_C9 (rp : String) (st : AppDocState) (r : GenResult)
    (h : jsTrim rp ≠ "") :
    (handleRefine rp st (Except.ok r)).sections = r.sections ∧
    (handleRefine rp st (Except.ok r)).designSystem = st.designSystem := by
  simp [handleRefine, h]

/-- Claim C9 witness: a concrete refinement swaps the sections and keeps the
prior design system even though the response carries a different one. -/
theorem claim_C9_witness :
    (handleRefine "make it dark" ⟨[sampleSection], defaultDesignSystem⟩
      (Except.ok ⟨[footerSection], ⟨"#000000", "0rem", "Arial", ⟨true, true, false⟩⟩⟩)).sections =
      [footerSection] ∧
    (handleRefine "make it dark" ⟨[sampleSection], defaultDesignSystem⟩
      (Except.ok ⟨[footerSection], ⟨"#000000", "0rem", "Arial", ⟨true, true, false⟩⟩⟩)).designSystem =
      defaultDesignSystem :=
  claim_C9 "make it dark" ⟨[sampleSection], defaultDesignSystem⟩
    ⟨[footerSection], ⟨"#000000", "0rem", "Arial", ⟨true, true, false⟩⟩⟩ (by decide)

theorem hexDigitVal_lt (c : Char) : hexDigitVal c < 16 := by
  unfold hexDigitVal
  split_ifs with h1 h2 h3
  · have h1a : '0' ≤ c ∧ c ≤ '9' := by simpa using h1
    have hl : 48 ≤ c.toNat := by simpa [Char.le_def] using h1a.1
    have hr : c.toNat ≤ 57 := by simpa [Char.le_def] using h1a.2
    omega
  · have h2a : 'a' ≤ c ∧ c ≤ 'f' := by simpa using h2
    have hl : 97 ≤ c.toNat := by simpa [Char.le_def] using h2a.1
    have hr : c.toNat ≤ 102 := by simpa [Char.le_def] using h2a.2
    omega
  · have h3a : 'A' ≤ c ∧ c ≤ 'F' := by simpa using h3
    have hl : 65 ≤ c.toNat := by simpa [Char.le_def] using h3a.1
    have hr : c.toNat ≤ 70 := by simpa [Char.le_def] using h3a.2
    omega
  · omega

/-- Claim C10: hexToRgb is total — for every input it returns a
comma-separated decimal RGB triple; when the input matches the regex
(optional leading hash, six case-insensitive hex digits) the triple is the
decimal value of the three byte pairs, every other input gets the fixed
fallback "79, 70, 229", and that fallback equals the RGB of the default
primary color "#4f46e5". -/
theorem claim_C10 (hex : String) :
    (∃ r g b : Nat, r < 256 ∧ g < 256 ∧ b < 256 ∧
      hexToRgb hex = toString r ++ ", " ++ toString g ++ ", " ++ toString b) ∧
    (hexMatch hex = none → hexToRgb hex = "79, 70, 229") ∧
    (∀ a b c d e f, hexMatch hex = some (a, b, c, d, e, f) →
      hexToRgb hex = toString (byteVal a b) ++ ", " ++ toString (byteVal c d) ++
        ", " ++ toString (byteVal e f)) ∧
    hexToRgb defaultDesignSystem.primaryColor = "79, 70, 229" := by
  refine ⟨?_, ?_, ?_, by decide⟩
  · cases hm : hexMatch hex with
    | none =>
      exact ⟨79, 70, 229, by omega, by omega, by omega, by simp [hexToRgb, hm]; rfl⟩
    | some t =>
      obtain ⟨a, b, c, d, e, f⟩ := t
      refine ⟨byteVal a b, byteVal c d, byteVal e f, ?_, ?_, ?_, by simp [hexToRgb, hm]⟩
      · have := hexDigitVal_lt a
        have := hexDigitVal_lt b
        unfold byteVal
        omega
      · have := hexDigitVal_lt c
        have := hexDigitVal_lt d
        unfold byteVal
        omega
      · have := hexDigitVal_lt e
        have := hexDigitVal_lt f
        unfold byteVal
        omega
  · intro hm
    simp [hexToRgb, hm]
  · intro a b c d e f hm
    simp [hexToRgb, hm]

/-- Claim C10 witness: a non-matching input gets the fallback, and the
default primary color's own RGB equals that fallback. -/
theorem claim_C10_witness :
    hexToRgb "not-a-color" = "79, 70, 229" ∧
    hexToRgb defaultDesignSystem.primaryColor = "79, 70, 229" :=
  ⟨(claim_C10 "not-a-color").2.1 (by decide), (claim_C10 "x").2.2.2⟩
